import Mathlib

/-!
Verification of `urlfinder_llm.py`: a shallow embedding of the response-handling
pipeline (structured-response parsing, query extraction, search cross-validation,
confidence scoring, per-record orchestration) together with theorems settling the
specification claims about it.

External collaborators (the Ollama chat call, `json.loads`, `json_repair.repair_json`)
are modelled as parameters or as explicit result values, exactly at the boundary the
source treats them: the pipeline's own control flow is embedded faithfully.
-/

namespace UrlFinder

/-- Python substring membership (`pat in s`) and `str.startswith`, embedded on
character lists. `isPre pat s` decides whether `pat` is a leading segment of `s`. -/
def isPre : List Char → List Char → Bool
  | [], _ => true
  | _ :: _, [] => false
  | a :: as, b :: bs => a == b && isPre as bs

/-- `hasSub pat s` decides whether `pat` occurs contiguously inside `s`
(the semantics of Python's `pat in s` on strings). -/
def hasSub (pat : List Char) : List Char → Bool
  | [] => pat.isEmpty
  | c :: rest => isPre pat (c :: rest) || hasSub pat rest

/-- Python `pat in s` for strings. -/
def strContains (s pat : String) : Bool :=
  hasSub pat.data s.data

/-- Python `s.startswith(p)`. -/
def strStartsWith (s p : String) : Bool :=
  isPre p.data s.data

/-- Python `s.lower()`, embedded per character (the inputs the program
compares are ASCII, where `Char.toLower` agrees with Python). -/
def strLower (s : String) : String :=
  ⟨s.data.map Char.toLower⟩

/-- Python `s.strip()`: remove leading and trailing whitespace. -/
def strTrim (s : String) : String :=
  ⟨((s.data.dropWhile Char.isWhitespace).reverse.dropWhile Char.isWhitespace).reverse⟩

/-- JSON-like values: the shape of what `json.loads` can produce
(object keys are always strings after a JSON parse; numbers are modelled
as integers, which is all the claims exercise). -/
inductive Json where
  | null
  | bool (b : Bool)
  | num (n : Int)
  | str (s : String)
  | arr (elems : List Json)
  | obj (entries : List (String × Json))

/-- Python truthiness (`bool(v)`) on a parsed JSON value, as used by the
`if parsed_data:` guard in `main`. -/
def truthy : Json → Bool
  | .null => false
  | .bool b => b
  | .num n => n != 0
  | .str s => !s.data.isEmpty
  | .arr l => !l.isEmpty
  | .obj l => !l.isEmpty

/-- `UrlFinder.get_llm_response` (source lines 66-78): the external `ollama.chat`
call either yields a content string or raises; the `except` clause converts the
exception into the sentinel string `"OLLAMA_ERROR: {e}"`. The external call is
modelled as an `Except` value (error message or content). -/
def get_llm_response (chatResult : Except String String) : String :=
  match chatResult with
  | .ok content => content
  | .error e => "OLLAMA_ERROR: " ++ e

/-- `simulate_search_result` (source lines 97-121): the stand-in engine check.
The query is lower-cased, then engine-specific substring rules apply. -/
def simulate_search_result (query engine : String) : Bool :=
  let q := strLower query
  if engine == "google" then
    strContains q "diebold" || strContains q "paccar"
  else if engine == "bing" then
    strContains q "paccar" && strContains q "g2"
  else if engine == "duckduckgo" then
    q == "diebold g2 reviews"
  else
    false

/-- The fixed engine list of `assess_confidence` (source line 128). -/
def engines : List String := ["google", "bing", "duckduckgo"]

/-- The `matches` list built by the loop in `assess_confidence`
(source lines 129-133): one `(engine, is_found)` pair per engine, in order. -/
def matchesFor (query : String) : List (String × Bool) :=
  engines.map (fun e => (e, simulate_search_result query e))

/-- `match_count` over an arbitrary match list (source line 135). -/
def count_matches (ms : List (String × Bool)) : Nat :=
  (ms.filter (fun p => p.2)).length

/-- The confidence tier. The source represents tiers as the strings
`"HIGH 🟢"` / `"MEDIUM 🟡"` / `"LOW 🔴"`; the emoji suffix is display-only,
so the tier is embedded as an enumeration. -/
inductive Confidence where
  | HIGH
  | MEDIUM
  | LOW
deriving DecidableEq

/-- The confidence-scoring branch of `assess_confidence` (source lines 138-143),
factored over the match list it inspects. -/
def tier_of (ms : List (String × Bool)) : Confidence :=
  if count_matches ms == 3 then .HIGH
  else if count_matches ms == 2 then .MEDIUM
  else .LOW

/-- `assess_confidence` (source lines 123-147), returning the tier
(the human-readable summary string is display formatting built from the
same `matchesFor` list). -/
def assess_confidence (query : String) : Confidence :=
  tier_of (matchesFor query)

/-- The entry scan of the extraction loop in `main` (source lines 194-200):
for each `(key, value)` pair, the key is tested first (`"Reviews" in key or
"Query" in key`; the `isinstance(key, str)` guard is vacuous since JSON object
keys are strings), then the value is tested if it is a string; the first hit
stops the scan. -/
def findQuery : List (String × Json) → Option String
  | [] => none
  | (key, value) :: rest =>
    if strContains key "Reviews" || strContains key "Query" then
      some key
    else
      match value with
      | .str s =>
        if strContains s "Reviews" || strContains s "Query" then some s
        else findQuery rest
      | _ => findQuery rest

/-- The query extraction of `main` (source lines 190-200): `search_query`
stays `None` unless the parsed value is a dict, in which case the entries are
scanned first-match. -/
def extractQuery : Json → Option String
  | .obj entries => findQuery entries
  | _ => none

/-- Outcome of one strict-then-repair parse (source lines 175-186):
either the strict `json.loads` succeeded, or repair-then-reparse succeeded,
or both attempts failed. -/
inductive ParseOutcome where
  | strictOk (v : Json)
  | repairedOk (v : Json)
  | failed

/-- The parse step of `main` (source lines 175-186), parameterised by the
external strict parser (`json.loads`, an `Option` since it can raise) and the
external repair function (`json_repair.repair_json`): strict parse of the
trimmed text first; on failure, one repair pass on the same trimmed text and
one re-parse of the repaired text; nothing else. -/
def parseResponse (sp : String → Option Json) (rp : String → String)
    (raw : String) : ParseOutcome :=
  match sp (strTrim raw) with
  | some v => .strictOk v
  | none =>
    match sp (rp (strTrim raw)) with
    | some v => .repairedOk v
    | none => .failed

/-- Terminal outcome of one record in `main`'s loop (source lines 164-217). -/
inductive Outcome where
  | invocationError (msg : String)
  | parseFailure (rawTrimmed : String)
  | silentSkip
  | extractionMiss (v : Json)
  | reported (query : String) (conf : Confidence)

/-- One iteration of `main`'s per-record loop (source lines 164-217):
sentinel check on the model response, strict/repair parsing, the truthiness
guard, query extraction, and confidence assessment. -/
def processRecord (sp : String → Option Json) (rp : String → String)
    (resp : Except String String) : Outcome :=
  let s := get_llm_response resp
  if strStartsWith s "OLLAMA_ERROR:" then
    .invocationError s
  else
    match parseResponse sp rp s with
    | .failed => .parseFailure (strTrim s)
    | .strictOk v | .repairedOk v =>
      if truthy v then
        match extractQuery v with
        | some q => .reported q (assess_confidence q)
        | none => .extractionMiss v
      else
        .silentSkip

/-- `main`'s loop over all rendered records (source lines 164-217): each record
is processed independently; every outcome, including the failing ones, lets the
loop continue with the next record. -/
def processBatch (sp : String → Option Json) (rp : String → String) :
    List (Except String String) → List Outcome
  | [] => []
  | r :: rs => processRecord sp rp r :: processBatch sp rp rs

/-- The extraction policy of spec §4.2, stated in the spec's own words as a
first-match scan: a non-object yields "not found"; otherwise the entries are
visited in order and the first entry whose key (tested first) or string value
contains `"Reviews"` or `"Query"` supplies the candidate. Written with
`List.findSome?` to be compared against `extractQuery`, which is translated
from the source loop. -/
def entryCandidate (e : String × Json) : Option String :=
  if strContains e.1 "Reviews" || strContains e.1 "Query" then
    some e.1
  else
    match e.2 with
    | .str s =>
      if strContains s "Reviews" || strContains s "Query" then some s else none
    | _ => none

/-- Spec §4.2 extraction, object case scanned by `List.findSome?`. -/
def extractQuerySpec : Json → Option String
  | .obj entries => entries.findSome? entryCandidate
  | _ => none

theorem findQuery_eq_findSome (l : List (String × Json)) :
    findQuery l = l.findSome? entryCandidate := by
  induction l with
  | nil => rfl
  | cons e rest ih =>
    obtain ⟨k, v⟩ := e
    by_cases hk : (strContains k "Reviews" || strContains k "Query") = true
    · simp [findQuery, List.findSome?_cons, entryCandidate, hk]
    · cases v with
      | null => simp [findQuery, List.findSome?_cons, entryCandidate, hk, ih]
      | bool b => simp [findQuery, List.findSome?_cons, entryCandidate, hk, ih]
      | num n => simp [findQuery, List.findSome?_cons, entryCandidate, hk, ih]
      | arr elems => simp [findQuery, List.findSome?_cons, entryCandidate, hk, ih]
      | obj entries => simp [findQuery, List.findSome?_cons, entryCandidate, hk, ih]
      | str s =>
        by_cases hs : (strContains s "Reviews" || strContains s "Query") = true <;>
          simp [findQuery, List.findSome?_cons, entryCandidate, hk, hs, ih]

theorem findQuery_cons (k : String) (v : Json) (rest : List (String × Json)) :
    findQuery ((k, v) :: rest) =
      if strContains k "Reviews" || strContains k "Query" then some k
      else
        match v with
        | .str s =>
          if strContains s "Reviews" || strContains s "Query" then some s
          else findQuery rest
        | _ => findQuery rest := by
  cases v <;> rfl

theorem findQuery_sound (l : List (String × Json)) (q : String)
    (h : findQuery l = some q) :
    (strContains q "Reviews" || strContains q "Query") = true ∧
    ((∃ j, (q, j) ∈ l) ∨ (∃ k, (k, Json.str q) ∈ l)) := by
  induction l with
  | nil => simp [findQuery] at h
  | cons e rest ih =>
    obtain ⟨k, v⟩ := e
    rw [findQuery_cons] at h
    by_cases hk : (strContains k "Reviews" || strContains k "Query") = true
    · rw [if_pos hk] at h
      obtain rfl : k = q := by injection h
      exact ⟨hk, Or.inl ⟨v, List.mem_cons_self _ _⟩⟩
    · rw [if_neg hk] at h
      have step :
          ((∃ j, (q, j) ∈ rest) ∨ (∃ k2, (k2, Json.str q) ∈ rest)) →
          ((∃ j, (q, j) ∈ (k, v) :: rest) ∨ (∃ k2, (k2, Json.str q) ∈ (k, v) :: rest)) := by
        rintro (⟨j, hj⟩ | ⟨k2, hk2⟩)
        · exact Or.inl ⟨j, List.mem_cons_of_mem _ hj⟩
        · exact Or.inr ⟨k2, List.mem_cons_of_mem _ hk2⟩
      cases v with
      | str s =>
        have h2 : (if strContains s "Reviews" || strContains s "Query" then some s
            else findQuery rest) = some q := h
        by_cases hs : (strContains s "Reviews" || strContains s "Query") = true
        · rw [if_pos hs] at h2
          obtain rfl : s = q := by injection h2
          exact ⟨hs, Or.inr ⟨k, List.mem_cons_self _ _⟩⟩
        · rw [if_neg hs] at h2
          obtain ⟨h1, hm⟩ := ih h2
          exact ⟨h1, step hm⟩
      | null => obtain ⟨h1, hm⟩ := ih h; exact ⟨h1, step hm⟩
      | bool b => obtain ⟨h1, hm⟩ := ih h; exact ⟨h1, step hm⟩
      | num n => obtain ⟨h1, hm⟩ := ih h; exact ⟨h1, step hm⟩
      | arr elems => obtain ⟨h1, hm⟩ := ih h; exact ⟨h1, step hm⟩
      | obj entries => obtain ⟨h1, hm⟩ := ih h; exact ⟨h1, step hm⟩

theorem strContains_match_ne_empty (q : String)
    (h : (strContains q "Reviews" || strContains q "Query") = true) : q ≠ "" := by
  intro hq
  rw [hq] at h
  exact absurd h (by decide)

/-- C1: extraction is exactly the first-match scan of spec §4.2: a non-object
yields "not found"; otherwise entries are visited in original order, the key is
tested before the value in each entry, the scan stops at the first hit, and a
scan with no hit yields "not found". Stated as equality between the source
translation `extractQuery` and the spec-worded `extractQuerySpec`. -/
theorem extract_follows_first_match_scan (v : Json) :
    extractQuery v = extractQuerySpec v := by
  cases v <;> simp [extractQuery, extractQuerySpec, findQuery_eq_findSome]

/-- C2: over a match list for the fixed three-engine set, the tier is HIGH
exactly when the match count is 3, MEDIUM exactly when it is 2, and LOW exactly
when it is 0 or 1 — the exact breakpoints, not a fraction rule. -/
theorem tier_exact_breakpoints (ms : List (String × Bool))
    (h : ms.map Prod.fst = engines) :
    (tier_of ms = Confidence.HIGH ↔ count_matches ms = 3) ∧
    (tier_of ms = Confidence.MEDIUM ↔ count_matches ms = 2) ∧
    (tier_of ms = Confidence.LOW ↔ count_matches ms = 0 ∨ count_matches ms = 1) := by
  have hlen : ms.length = 3 := by
    have := congrArg List.length h
    simpa [engines] using this
  have hle : count_matches ms ≤ 3 := by
    have := List.length_filter_le (fun p => p.2) ms
    rw [count_matches, ← hlen]
    exact this
  have hcases : count_matches ms = 0 ∨ count_matches ms = 1 ∨
      count_matches ms = 2 ∨ count_matches ms = 3 := by omega
  rcases hcases with hc | hc | hc | hc <;> simp [tier_of, hc]

/-- Witness for C2 at a concrete two-of-three match list. -/
theorem tier_exact_breakpoints_witness :
    tier_of [("google", true), ("bing", true), ("duckduckgo", false)] =
      Confidence.MEDIUM :=
  (tier_exact_breakpoints
    [("google", true), ("bing", true), ("duckduckgo", false)] (by decide)).2.1.mpr
    (by decide)

/-- C5: the validator consults all three engines in the fixed order google,
bing, duckduckgo with no short-circuiting — the match list is literally one
entry per engine, each carrying that engine's own check result — and its keys
are exactly the configured engine list, which has no duplicates. -/
theorem validator_consults_all_engines (query : String) :
    matchesFor query =
      [("google", simulate_search_result query "google"),
       ("bing", simulate_search_result query "bing"),
       ("duckduckgo", simulate_search_result query "duckduckgo")] ∧
    (matchesFor query).map Prod.fst = engines ∧
    engines.Nodup :=
  ⟨rfl, rfl, by decide⟩

/-- C6: on `{"company": "diebold", "search_term": "paccar g2 reviews"}`
extraction returns "not found": matching is case-sensitive, so the lowercase
"reviews" in the second value does not contain the literal "Reviews", and no
key or value passes either test. -/
theorem extract_case_sensitive_miss :
    extractQuery (Json.obj [("company", Json.str "diebold"),
      ("search_term", Json.str "paccar g2 reviews")]) = none ∧
    strContains "paccar g2 reviews" "Reviews" = false ∧
    strContains "paccar g2 reviews" "reviews" = true :=
  ⟨rfl, rfl, rfl⟩

/-- C9: on the literal query "diebold g2 reviews" the stand-in validator
deterministically yields google = MATCH, bing = FAIL, duckduckgo = MATCH,
hence a match count of 2 of 3 and the MEDIUM tier. -/
theorem diebold_query_medium_tier :
    matchesFor "diebold g2 reviews" =
      [("google", true), ("bing", false), ("duckduckgo", true)] ∧
    count_matches (matchesFor "diebold g2 reviews") = 2 ∧
    assess_confidence "diebold g2 reviews" = Confidence.MEDIUM :=
  ⟨by decide, by decide, by decide⟩

/-- C3: parsing makes at most two attempts in a fixed order. A strict parse of
the trimmed input that succeeds determines the result immediately and makes the
result independent of the repair function (repair is never invoked on valid
JSON); only on strict failure is one repair pass applied to the trimmed text
and its output parsed once, with no further retries — the outcome is exactly
that single re-parse. -/
theorem parse_two_attempts_fixed_order (sp : String → Option Json)
    (rp rp2 : String → String) (raw : String) :
    (∀ v, sp (strTrim raw) = some v →
      parseResponse sp rp raw = ParseOutcome.strictOk v ∧
      parseResponse sp rp raw = parseResponse sp rp2 raw) ∧
    (sp (strTrim raw) = none →
      parseResponse sp rp raw =
        match sp (rp (strTrim raw)) with
        | some v => ParseOutcome.repairedOk v
        | none => ParseOutcome.failed) := by
  constructor
  · intro v hv
    constructor <;> simp [parseResponse, hv]
  · intro hn
    simp [parseResponse, hn]

/-- Witness for C3: a concrete strict parser that accepts `"{}"`, applied to
the padded input `"  {} "`; the strict attempt succeeds and the result does not
depend on the repair function. -/
theorem parse_two_attempts_fixed_order_witness :
    parseResponse (fun s => if s == "{}" then some (Json.obj []) else none)
        (fun s => s) "  {} " = ParseOutcome.strictOk (Json.obj []) ∧
    parseResponse (fun s => if s == "{}" then some (Json.obj []) else none)
        (fun s => s) "  {} " =
      parseResponse (fun s => if s == "{}" then some (Json.obj []) else none)
        (fun _ => "[1]") "  {} " :=
  (parse_two_attempts_fixed_order
    (fun s => if s == "{}" then some (Json.obj []) else none)
    (fun s => s) (fun _ => "[1]") "  {} ").1 (Json.obj []) rfl

/-- The strict parser of the C4 analysis: rejects every input, so both
parse attempts fail. -/
def spReject : String → Option Json := fun _ => none

/-- C4 counterexample: the record outcome carries the trimmed raw text, not
the original raw text. For the raw response `" ? "` (unparseable, both
attempts failing) the recorded failure payload is `"?"`, which differs from
the original `" ? "`. -/
theorem parse_failure_payload_counterexample :
    processRecord spReject (fun s => s) (Except.ok " ? ") =
      Outcome.parseFailure "?" ∧
    "?" ≠ " ? " :=
  ⟨rfl, by decide⟩

/-- C4 (amended): when both the strict parse and the repair-then-parse attempt
fail, the record's outcome is a parse failure carrying the trimmed original
raw text, and the batch loop continues with the remaining records. -/
theorem parse_failure_skips_record (sp : String → Option Json)
    (rp : String → String) (s : String) (rest : List (Except String String))
    (hs : strStartsWith s "OLLAMA_ERROR:" = false)
    (h1 : sp (strTrim s) = none) (h2 : sp (rp (strTrim s)) = none) :
    processRecord sp rp (Except.ok s) = Outcome.parseFailure (strTrim s) ∧
    processBatch sp rp (Except.ok s :: rest) =
      Outcome.parseFailure (strTrim s) :: processBatch sp rp rest := by
  constructor
  · simp [processRecord, get_llm_response, parseResponse, hs, h1, h2]
  · rw [processBatch]
    simp [processRecord, get_llm_response, parseResponse, hs, h1, h2]

/-- Witness for C4 at the unparseable raw response `"garbage"` followed by a
further record, which is still processed. -/
theorem parse_failure_skips_record_witness :
    processRecord spReject (fun s => s) (Except.ok "garbage") =
      Outcome.parseFailure "garbage" ∧
    processBatch spReject (fun s => s) [Except.ok "garbage", Except.error "down"] =
      [Outcome.parseFailure "garbage",
       Outcome.invocationError "OLLAMA_ERROR: down"] :=
  parse_failure_skips_record spReject (fun s => s) "garbage"
    [Except.error "down"] rfl rfl rfl

/-- C7: an extracted query candidate contains `"Reviews"` or `"Query"`, is
therefore non-empty, and appears verbatim as a key or as a string value of the
parsed object. -/
theorem extracted_candidate_verbatim (v : Json) (q : String)
    (h : extractQuery v = some q) :
    (strContains q "Reviews" || strContains q "Query") = true ∧
    q ≠ "" ∧
    ∃ entries, v = Json.obj entries ∧
      ((∃ j, (q, j) ∈ entries) ∨ (∃ k, (k, Json.str q) ∈ entries)) := by
  cases v with
  | obj entries =>
    obtain ⟨h1, h2⟩ := findQuery_sound entries q h
    exact ⟨h1, strContains_match_ne_empty q h1, entries, rfl, h2⟩
  | null => simp [extractQuery] at h
  | bool b => simp [extractQuery] at h
  | num n => simp [extractQuery] at h
  | str s => simp [extractQuery] at h
  | arr elems => simp [extractQuery] at h

/-- Witness for C7 at `{"G2 Reviews Query": "x"}`, whose key is extracted. -/
theorem extracted_candidate_verbatim_witness :
    (strContains "G2 Reviews Query" "Reviews" ||
      strContains "G2 Reviews Query" "Query") = true ∧
    "G2 Reviews Query" ≠ "" ∧
    ∃ entries,
      Json.obj [("G2 Reviews Query", Json.str "x")] = Json.obj entries ∧
      ((∃ j, ("G2 Reviews Query", j) ∈ entries) ∨
       (∃ k, (k, Json.str "G2 Reviews Query") ∈ entries)) :=
  extracted_candidate_verbatim (Json.obj [("G2 Reviews Query", Json.str "x")])
    "G2 Reviews Query" rfl

/-- C8: a failed model invocation is returned as the sentinel string
`"OLLAMA_ERROR: "` followed by the error, which starts with the sentinel
prefix the loop tests for; the record's outcome is the invocation-error
branch and the batch loop continues with the remaining records. -/
theorem invocation_error_sentinel (sp : String → Option Json)
    (rp : String → String) (e : String) (rest : List (Except String String)) :
    get_llm_response (Except.error e) = "OLLAMA_ERROR: " ++ e ∧
    strStartsWith (get_llm_response (Except.error e)) "OLLAMA_ERROR:" = true ∧
    processRecord sp rp (Except.error e) =
      Outcome.invocationError ("OLLAMA_ERROR: " ++ e) ∧
    processBatch sp rp (Except.error e :: rest) =
      Outcome.invocationError ("OLLAMA_ERROR: " ++ e) :: processBatch sp rp rest :=
  ⟨rfl, rfl, rfl, rfl⟩

/-- C10: a record whose response parses to a JSON-falsy value — exactly one of
`null`, `false`, `0`, `""`, `[]`, `{}` — is skipped silently: its outcome is
the silent skip, which is neither a parse-failure report, nor an
extraction-miss report, nor a reported result. -/
theorem falsy_parse_silent_skip (sp : String → Option Json)
    (rp : String → String) (s : String) (v : Json)
    (hs : strStartsWith s "OLLAMA_ERROR:" = false)
    (hp : parseResponse sp rp s = ParseOutcome.strictOk v ∨
          parseResponse sp rp s = ParseOutcome.repairedOk v)
    (hf : truthy v = false) :
    processRecord sp rp (Except.ok s) = Outcome.silentSkip ∧
    (∀ w : Json, truthy w = false ↔
      (w = Json.null ∨ w = Json.bool false ∨ w = Json.num 0 ∨
       w = Json.str "" ∨ w = Json.arr [] ∨ w = Json.obj [])) := by
  constructor
  · rcases hp with hp | hp <;> simp [processRecord, get_llm_response, hs, hp, hf]
  · intro w
    cases w with
    | null => simp [truthy]
    | bool b => simp [truthy]
    | num n => simp [truthy]
    | str t => simp [truthy, List.isEmpty_iff, String.ext_iff]
    | arr elems => simp [truthy]
    | obj entries => simp [truthy]

/-- Witness for C10: the response `"{}"` parses strictly to the empty object,
which is falsy, and the record is skipped silently. -/
theorem falsy_parse_silent_skip_witness :
    processRecord (fun s => if s == "{}" then some (Json.obj []) else none)
        (fun s => s) (Except.ok "{}") = Outcome.silentSkip ∧
    truthy (Json.obj []) = false :=
  ⟨(falsy_parse_silent_skip (fun s => if s == "{}" then some (Json.obj []) else none)
      (fun s => s) "{}" (Json.obj []) rfl (Or.inl rfl) rfl).1, rfl⟩

end UrlFinder
